import Mathlib

/-!
Verification of the passphrase-based authenticated file-encryption core
(`encryptFile` / `decryptFile` / `deriveKey` in `src/unnamed/part_001`).

The container codec is translated directly from the source.  The platform
cryptographic primitives it calls (`window.crypto.subtle` PBKDF2 and
AES-GCM, `window.crypto.getRandomValues`) are not repository code; they are
modelled from the spec (sections 4.1, 4.2 and 9): the KDF is an executable
deterministic key-stretching function of (passphrase, salt) parameterised by
the iteration count, the AEAD is a keystream cipher producing a ciphertext
of plaintext length followed by a 16-byte tag that is recomputed and
compared on open, and the random draws are injected as explicit parameters
(the spec's own recommended strategy for modelling the RNG capability).

Byte buffers are `List Nat`; each entry stands for one byte.
-/

/-- Source constant (part_001 line 38): salt length in bytes. -/
def SALT_SIZE : Nat := 16

/-- Source constant (part_001 line 39): nonce (IV) length in bytes. -/
def IV_SIZE : Nat := 12

/-- Source constant (part_001 line 40): derived-key length in bits. -/
def KEY_LENGTH : Nat := 256

/-- Source constant (part_001 line 41): PBKDF2 work factor. -/
def PBKDF2_ITERATIONS : Nat := 100000

/-- Source (part_001 line 61): the hash named in the PBKDF2 parameter object. -/
def PBKDF2_HASH : String := "SHA-256"

/-- AES-GCM authentication tags are 16 bytes (spec section 4.2). -/
def TAG_SIZE : Nat := 16

/-- Base-257 packing of a byte list into a natural number (digits 1..256, so
leading zero bytes are preserved).  Used by the modelled primitives to mix a
whole buffer into one number. -/
def encodeBytes (l : List Nat) : Nat :=
  l.foldl (fun a b => a * 257 + b % 256 + 1) 0

/-- The fixed text encoding of a passphrase (the source uses `TextEncoder`);
modelled as the list of character codepoints. -/
def encodePassphrase (p : String) : List Nat :=
  p.toList.map Char.toNat

/-- Modular exponentiation by binary square-and-multiply with explicit fuel;
`powMod m fuel b e = b ^ e % m` whenever `fuel` bounds the binary length of
`e`.  Written this way so that concrete instances reduce in the kernel. -/
def powMod (m : Nat) : Nat → Nat → Nat → Nat
  | 0, _, _ => 1 % m
  | fuel + 1, b, e =>
    if e = 0 then 1 % m
    else
      let r := powMod m fuel (b * b % m) (e / 2)
      if e % 2 = 1 then r * b % m else r

/-- Modelled from the spec: the platform PBKDF2 primitive
(`window.crypto.subtle.deriveKey`, part_001 lines 48-67) is not repository
code.  Spec section 4.1: a deterministic password-based key-stretching
function of (passphrase bytes, salt) with a hard-coded work factor, producing
a 256-bit key.  The stretching is modelled as modular exponentiation of the
packed input by the iteration count, reduced to `KEY_LENGTH` bits. -/
def pbkdf2 (iterations : Nat) (passBytes salt : List Nat) : Nat :=
  powMod (2 ^ KEY_LENGTH) (iterations + 1)
    (encodeBytes (passBytes ++ salt) + 2) iterations

/-- Source `deriveKey` (part_001 lines 43-68): encode the passphrase, then
run PBKDF2 with the fixed iteration count and hash over (passphrase, salt).
The source performs no validation of either input. -/
def deriveKey (passphrase : String) (salt : List Nat) : Nat :=
  pbkdf2 PBKDF2_ITERATIONS (encodePassphrase passphrase) salt

/-- Modelled from the spec: one keystream byte of the AES-GCM (CTR-mode)
cipher, a deterministic function of key, nonce and position. -/
def keystreamByte (key : Nat) (iv : List Nat) (i : Nat) : Nat :=
  (key + (encodeBytes iv + 1) * (2 * i + 1)) % 256

/-- Modelled from the spec: the first `n` keystream bytes under (key, iv). -/
def keystream (key : Nat) (iv : List Nat) (n : Nat) : List Nat :=
  (List.range n).map (keystreamByte key iv)

/-- Byte-wise XOR of a buffer with the keystream (truncating to the shorter). -/
def xorBytes (a b : List Nat) : List Nat :=
  List.zipWith (fun x y => x ^^^ y) a b

/-- Modelled from the spec: the ciphertext body of AES-GCM — plaintext XOR
keystream, hence exactly the plaintext's length (spec section 4.2). -/
def gcmCiphertext (key : Nat) (iv m : List Nat) : List Nat :=
  xorBytes m (keystream key iv m.length)

/-- Modelled from the spec: the 16-byte authentication tag, a deterministic
function of key, nonce and ciphertext, recomputed and compared on open. -/
def gcmTag (key : Nat) (iv ct : List Nat) : List Nat :=
  (List.range TAG_SIZE).map
    (fun i => (key + 3 * encodeBytes iv + 5 * encodeBytes ct + 7 * i + 11) % 256)

/-- Modelled from the spec: AES-GCM Seal (`window.crypto.subtle.encrypt`,
part_001 lines 81-88): ciphertext of plaintext length followed by the
16-byte tag. -/
def sealGCM (key : Nat) (iv m : List Nat) : List Nat :=
  gcmCiphertext key iv m ++ gcmTag key iv (gcmCiphertext key iv m)

/-- Modelled from the spec: AES-GCM Open (`window.crypto.subtle.decrypt`,
part_001 lines 113-120): reject inputs shorter than one tag, split off the
trailing 16-byte tag, recompute it over the ciphertext, and release the
plaintext only on an exact tag match. -/
def openAEAD (key : Nat) (iv data : List Nat) : Option (List Nat) :=
  if data.length < TAG_SIZE then none
  else
    let ct := data.take (data.length - TAG_SIZE)
    let tag := data.drop (data.length - TAG_SIZE)
    if gcmTag key iv ct = tag then
      some (xorBytes ct (keystream key iv ct.length))
    else none

/-- A browser `File`: its raw bytes and its MIME type string. -/
structure WebFile where
  data : List Nat
  type : String
  deriving DecidableEq

/-- A browser `Blob`: its raw bytes and its MIME type string.  A `Blob`
constructed without a type option (as in `encryptFile`) has the empty type. -/
structure WebBlob where
  data : List Nat
  type : String
  deriving DecidableEq

/-- Source `encryptFile` (part_001 lines 70-92).  The two fresh random draws
(`getRandomValues` of 16 and 12 bytes, lines 74-75) are injected as the
explicit parameters `salt` and `iv`, the spec's section-9 strategy for the
RNG capability.  The result is `new Blob([salt, iv, encryptedContent])`,
whose type option is omitted, hence the empty MIME type. -/
def encryptFile (file : WebFile) (passphrase : String)
    (salt iv : List Nat) : WebBlob :=
  let key := deriveKey passphrase salt
  let fileBuffer := file.data
  let encryptedContent := sealGCM key iv fileBuffer
  { data := salt ++ iv ++ encryptedContent, type := "" }

/-- Source string (part_001 lines 106-108): the error thrown by the format
check inside `decryptFile`'s try block. -/
def invalidFormatMsg : String :=
  "Invalid file format. The file may not be an encrypted file or it is corrupted."

/-- Source string (part_001 lines 126-128): the single message every
`decryptFile` failure is rethrown with. -/
def decryptErrorMsg : String :=
  "Decryption failed. Please check your passphrase and ensure the file is not corrupted."

/-- The body of `decryptFile`'s try block (part_001 lines 99-123): slice
salt = bytes[0:16], iv = bytes[16:28], encryptedContent = bytes[28:]; throw
the format error if either fixed slice came up short; otherwise derive the
key and run the authenticated decryption (whose failure is the platform
`OperationError`). -/
def decryptFileInner (file : WebFile) (passphrase : String) :
    Except String WebBlob :=
  let fileBuffer := file.data
  let salt := fileBuffer.take SALT_SIZE
  let iv := (fileBuffer.drop SALT_SIZE).take IV_SIZE
  let encryptedContent := fileBuffer.drop (SALT_SIZE + IV_SIZE)
  if salt.length ≠ SALT_SIZE ∨ iv.length ≠ IV_SIZE then
    .error invalidFormatMsg
  else
    let key := deriveKey passphrase salt
    match openAEAD key iv encryptedContent with
    | some decryptedContent => .ok { data := decryptedContent, type := file.type }
    | none => .error "OperationError"

/-- Source `decryptFile` (part_001 lines 94-130): the whole body runs inside
one try/catch whose catch rethrows every failure as the single generic
message. -/
def decryptFile (file : WebFile) (passphrase : String) :
    Except String WebBlob :=
  match decryptFileInner file passphrase with
  | .ok b => .ok b
  | .error _ => .error decryptErrorMsg

/-- The only validation `decryptFile` performs before `deriveKey` is called
(part_001 lines 101-109): both fixed slices must be full length.  `true`
means the input reaches key derivation. -/
def decryptFormatCheckPasses (buf : List Nat) : Bool :=
  decide ((buf.take SALT_SIZE).length = SALT_SIZE ∧
    ((buf.drop SALT_SIZE).take IV_SIZE).length = IV_SIZE)

/-- KDF-level error kinds named by the spec (section 4.1). -/
inductive KdfError where
  | InvalidSalt
  | EmptyPassphrase
  deriving DecidableEq

/-- Modelled from the spec: section 4.1's error conditions for the KDF —
`InvalidSalt` if the salt is not exactly 16 bytes, `EmptyPassphrase` if the
passphrase is zero-length, otherwise derive the key.  Stated as a second
definition to compare against the source's `deriveKey`, which has no error
channel at all. -/
def deriveKeySpec (passphrase : String) (salt : List Nat) :
    Except KdfError Nat :=
  if salt.length ≠ SALT_SIZE then .error .InvalidSalt
  else if passphrase = "" then .error .EmptyPassphrase
  else .ok (deriveKey passphrase salt)

/-! ### Helper lemmas -/

theorem length_keystream (key : Nat) (iv : List Nat) (n : Nat) :
    (keystream key iv n).length = n := by
  simp [keystream]

theorem length_gcmCiphertext (key : Nat) (iv m : List Nat) :
    (gcmCiphertext key iv m).length = m.length := by
  simp [gcmCiphertext, xorBytes, length_keystream]

theorem length_gcmTag (key : Nat) (iv ct : List Nat) :
    (gcmTag key iv ct).length = TAG_SIZE := by
  simp [gcmTag]

theorem xorBytes_cancel (m ks : List Nat) :
    xorBytes (xorBytes m ks) ks = m.take ks.length := by
  induction m generalizing ks with
  | nil => simp [xorBytes]
  | cons a l ih =>
    cases ks with
    | nil => simp [xorBytes]
    | cons b ks' =>
      have h := ih ks'
      simp only [xorBytes] at h ⊢
      simp [Nat.xor_cancel_right, h]

theorem gcmCiphertext_decrypt (key : Nat) (iv m : List Nat) :
    xorBytes (gcmCiphertext key iv m)
      (keystream key iv (gcmCiphertext key iv m).length) = m := by
  rw [length_gcmCiphertext, gcmCiphertext,
    xorBytes_cancel m (keystream key iv m.length), length_keystream,
    List.take_length]

theorem openAEAD_seal (key : Nat) (iv m : List Nat) :
    openAEAD key iv (sealGCM key iv m) = some m := by
  have hct := length_gcmCiphertext key iv m
  have hlen : (sealGCM key iv m).length = m.length + TAG_SIZE := by
    simp [sealGCM, length_gcmCiphertext, length_gcmTag]
  rw [openAEAD, if_neg (by omega)]
  have hsub : (sealGCM key iv m).length - TAG_SIZE = m.length := by omega
  rw [hsub]
  have htake : (sealGCM key iv m).take m.length = gcmCiphertext key iv m := by
    rw [sealGCM]; exact List.take_left' hct
  have hdrop : (sealGCM key iv m).drop m.length
      = gcmTag key iv (gcmCiphertext key iv m) := by
    rw [sealGCM]; exact List.drop_left' hct
  rw [htake, hdrop, if_pos rfl, gcmCiphertext_decrypt key iv m]

theorem decrypt_encrypt_aux (m : List Nat) (p t t' : String)
    (salt iv : List Nat) (hs : salt.length = SALT_SIZE)
    (hi : iv.length = IV_SIZE) :
    decryptFile ⟨(encryptFile ⟨m, t⟩ p salt iv).data, t'⟩ p
      = .ok ⟨m, t'⟩ := by
  have hbuf : (encryptFile ⟨m, t⟩ p salt iv).data
      = salt ++ (iv ++ sealGCM (deriveKey p salt) iv m) := by
    simp [encryptFile]
  have htake : (salt ++ (iv ++ sealGCM (deriveKey p salt) iv m)).take SALT_SIZE
      = salt := List.take_left' hs
  have hdrop : (salt ++ (iv ++ sealGCM (deriveKey p salt) iv m)).drop SALT_SIZE
      = iv ++ sealGCM (deriveKey p salt) iv m := List.drop_left' hs
  have htakeiv : (iv ++ sealGCM (deriveKey p salt) iv m).take IV_SIZE = iv :=
    List.take_left' hi
  have hdropiv : (iv ++ sealGCM (deriveKey p salt) iv m).drop IV_SIZE
      = sealGCM (deriveKey p salt) iv m := List.drop_left' hi
  have hdrop28 : (salt ++ (iv ++ sealGCM (deriveKey p salt) iv m)).drop
      (SALT_SIZE + IV_SIZE) = sealGCM (deriveKey p salt) iv m := by
    rw [← List.drop_drop, hdrop, hdropiv]
  rw [decryptFile, decryptFileInner]
  simp only [hbuf, htake, hdrop, htakeiv, hdrop28]
  rw [if_neg (by simp [hs, hi])]
  rw [openAEAD_seal]

/-! ### Claim theorems -/

/-- C2: round-trip — for every plaintext byte buffer `m` (including the
empty buffer) and every passphrase `p` (in particular every non-empty one),
decrypting the output of encryption with the same passphrase returns the
original plaintext, for any 16-byte salt and 12-byte nonce drawn at
encryption time. -/
theorem roundTrip_decrypt_encrypt (m : List Nat) (p t t' : String)
    (salt iv : List Nat) (hs : salt.length = SALT_SIZE)
    (hi : iv.length = IV_SIZE) :
    decryptFile ⟨(encryptFile ⟨m, t⟩ p salt iv).data, t'⟩ p
      = .ok ⟨m, t'⟩ :=
  decrypt_encrypt_aux m p t t' salt iv hs hi

/-- Witness for C2 at a concrete input. -/
theorem roundTrip_decrypt_encrypt_witness :
    (List.replicate 16 1).length = SALT_SIZE ∧
    (List.replicate 12 2).length = IV_SIZE ∧
    decryptFile ⟨(encryptFile ⟨[104, 105], "text/plain"⟩ "pw"
        (List.replicate 16 1) (List.replicate 12 2)).data, "bin"⟩ "pw"
      = .ok ⟨[104, 105], "bin"⟩ :=
  ⟨by decide, by decide,
    roundTrip_decrypt_encrypt [104, 105] "pw" "text/plain" "bin"
      (List.replicate 16 1) (List.replicate 12 2) (by decide) (by decide)⟩

theorem powMod_lt (m : Nat) (hm : 0 < m) : ∀ fuel b e, powMod m fuel b e < m
  | 0, _, _ => by simpa [powMod] using Nat.mod_lt 1 hm
  | fuel + 1, b, e => by
    rw [powMod]
    by_cases he : e = 0
    · simpa [he] using Nat.mod_lt 1 hm
    · rw [if_neg he]
      by_cases ho : e % 2 = 1
      · simpa [ho] using Nat.mod_lt (powMod m fuel (b * b % m) (e / 2) * b) hm
      · simpa [ho] using powMod_lt m hm fuel (b * b % m) (e / 2)

theorem encryptFile_salt_slice (m : List Nat) (p t : String)
    (salt iv : List Nat) (hs : salt.length = SALT_SIZE) :
    (encryptFile ⟨m, t⟩ p salt iv).data.take SALT_SIZE = salt := by
  show (salt ++ iv ++ sealGCM (deriveKey p salt) iv m).take SALT_SIZE = salt
  rw [List.append_assoc]
  exact List.take_left' hs

/-- C1 (amended): the pre-key-derivation check in `decryptFile` only demands
a buffer of at least 28 bytes (full salt and nonce slices); buffers of
length 28 to 43 pass it, so key derivation is attempted on them, and they
then fail inside the authenticated decryption because fewer than 16
ciphertext-region bytes remain.  Every buffer shorter than 44 bytes does
fail, but with the single generic decryption-failure message — the code
defines no `TooShort` error — and only buffers shorter than 28 bytes are
rejected before key derivation. -/
theorem decryptFile_short_buffer (buf : List Nat) (t p : String)
    (h : buf.length < 44) :
    decryptFile ⟨buf, t⟩ p = .error decryptErrorMsg ∧
    (buf.length < 28 → decryptFormatCheckPasses buf = false) := by
  constructor
  · rcases Nat.lt_or_ge buf.length 28 with hlt | hge
    · have hinner : decryptFileInner ⟨buf, t⟩ p = .error invalidFormatMsg := by
        simp only [decryptFileInner]
        rw [if_pos]
        simp only [List.length_take, List.length_drop, SALT_SIZE, IV_SIZE]
        omega
      rw [decryptFile, hinner]
    · have hsalt : (buf.take SALT_SIZE).length = SALT_SIZE := by
        simp only [List.length_take, SALT_SIZE]; omega
      have hiv : ((buf.drop SALT_SIZE).take IV_SIZE).length = IV_SIZE := by
        simp only [List.length_take, List.length_drop, SALT_SIZE, IV_SIZE]
        omega
      have hopen : openAEAD (deriveKey p (buf.take SALT_SIZE))
          ((buf.drop SALT_SIZE).take IV_SIZE)
          (buf.drop (SALT_SIZE + IV_SIZE)) = none := by
        rw [openAEAD, if_pos]
        simp only [List.length_drop, SALT_SIZE, IV_SIZE, TAG_SIZE]
        omega
      have hinner : decryptFileInner ⟨buf, t⟩ p = .error "OperationError" := by
        simp only [decryptFileInner]
        rw [if_neg (by simp [hsalt, hiv]), hopen]
      rw [decryptFile, hinner]
  · intro hlt
    simp only [decryptFormatCheckPasses, decide_eq_false_iff_not, not_and,
      List.length_take, List.length_drop, SALT_SIZE, IV_SIZE]
    omega

/-- Counterexample to C1 as stated: the 28-byte all-zero buffer is shorter
than 44 bytes, yet it passes the only validation `decryptFile` performs
before calling `deriveKey`, so key derivation is attempted on it; and the
failure it ends in carries the generic decryption-failure message, not a
`TooShort` error (no such error exists in the code). -/
theorem decryptFile_short_counterexample :
    (List.replicate 28 0).length < 44 ∧
    decryptFormatCheckPasses (List.replicate 28 0) = true ∧
    decryptFile ⟨List.replicate 28 0, "text/plain"⟩ "pw"
      = .error decryptErrorMsg := by
  refine ⟨by decide, by decide, ?_⟩
  rfl

/-- Witness for C1's amended theorem at a concrete input. -/
theorem decryptFile_short_buffer_witness :
    (List.replicate 10 0).length < 44 ∧
    decryptFile ⟨List.replicate 10 0, "t"⟩ "pw" = .error decryptErrorMsg :=
  ⟨by decide,
    (decryptFile_short_buffer (List.replicate 10 0) "t" "pw" (by decide)).1⟩

/-- C3: for every plaintext `m` and passphrase `p` (and every 16-byte salt
and 12-byte nonce drawn at encryption time), `encryptFile` returns a single
byte buffer of length exactly `m.length + 44`, laid out as the 16-byte salt
at offset 0, the 12-byte nonce at offset 16, the ciphertext (of the
plaintext's length) at offset 28, and the 16-byte authentication tag at the
end. -/
theorem encryptFile_layout (m : List Nat) (p t : String) (salt iv : List Nat)
    (hs : salt.length = SALT_SIZE) (hi : iv.length = IV_SIZE) :
    (encryptFile ⟨m, t⟩ p salt iv).data.length = m.length + 44 ∧
    (encryptFile ⟨m, t⟩ p salt iv).data.take 16 = salt ∧
    ((encryptFile ⟨m, t⟩ p salt iv).data.drop 16).take 12 = iv ∧
    ((encryptFile ⟨m, t⟩ p salt iv).data.drop 28).take m.length
      = gcmCiphertext (deriveKey p salt) iv m ∧
    (encryptFile ⟨m, t⟩ p salt iv).data.drop (28 + m.length)
      = gcmTag (deriveKey p salt) iv (gcmCiphertext (deriveKey p salt) iv m) ∧
    ((encryptFile ⟨m, t⟩ p salt iv).data.drop (28 + m.length)).length = 16 := by
  have hs16 : salt.length = 16 := hs
  have hi12 : iv.length = 12 := hi
  have hbuf : (encryptFile ⟨m, t⟩ p salt iv).data
      = salt ++ (iv ++ sealGCM (deriveKey p salt) iv m) := by
    simp [encryptFile]
  have hct := length_gcmCiphertext (deriveKey p salt) iv m
  have htag := length_gcmTag (deriveKey p salt) iv
    (gcmCiphertext (deriveKey p salt) iv m)
  refine ⟨?_, ?_, ?_, ?_, ?_, ?_⟩
  · rw [hbuf]
    simp only [List.length_append, hs16, hi12, sealGCM, hct, htag, TAG_SIZE]
    omega
  · rw [hbuf]; exact List.take_left' hs16
  · rw [hbuf, List.drop_left' hs16]; exact List.take_left' hi12
  · rw [hbuf, show (28 : Nat) = 16 + 12 by rfl, ← List.drop_drop,
      List.drop_left' hs16, List.drop_left' hi12, sealGCM]
    exact List.take_left' hct
  · rw [hbuf, show (28 + m.length : Nat) = (16 + 12) + m.length by omega,
      ← List.drop_drop, ← List.drop_drop, List.drop_left' hs16,
      List.drop_left' hi12, sealGCM, List.drop_left' hct]
  · rw [hbuf, show (28 + m.length : Nat) = (16 + 12) + m.length by omega,
      ← List.drop_drop, ← List.drop_drop, List.drop_left' hs16,
      List.drop_left' hi12, sealGCM, List.drop_left' hct, htag]
    rfl

/-- Witness for C3 at a concrete input. -/
theorem encryptFile_layout_witness :
    (List.replicate 16 3).length = SALT_SIZE ∧
    (List.replicate 12 4).length = IV_SIZE ∧
    (encryptFile ⟨[7, 8, 9], "t"⟩ "pw" (List.replicate 16 3)
      (List.replicate 12 4)).data.length = 3 + 44 :=
  ⟨by decide, by decide,
    (encryptFile_layout [7, 8, 9] "pw" "t" (List.replicate 16 3)
      (List.replicate 12 4) (by decide) (by decide)).1⟩

/-- C4: the key derivation is a pure, deterministic function of
(passphrase, salt) — it is literally PBKDF2 with the fixed constants — run
with an iteration count of exactly 100000 and the SHA-256 hash, producing a
key below `2 ^ 256` (a 256-bit key); and the decrypt path re-derives exactly
the encrypt path's key, because the salt slice it reads from the container
at offset 0 is the salt the encrypt path used. -/
theorem deriveKey_parameters (m : List Nat) (p t : String)
    (salt iv : List Nat) (hs : salt.length = SALT_SIZE) :
    PBKDF2_ITERATIONS = 100000 ∧
    PBKDF2_HASH = "SHA-256" ∧
    KEY_LENGTH = 256 ∧
    (∀ p' s', deriveKey p' s'
      = pbkdf2 PBKDF2_ITERATIONS (encodePassphrase p') s') ∧
    deriveKey p salt < 2 ^ KEY_LENGTH ∧
    deriveKey p ((encryptFile ⟨m, t⟩ p salt iv).data.take SALT_SIZE)
      = deriveKey p salt := by
  refine ⟨rfl, rfl, rfl, fun p' s' => rfl, ?_, ?_⟩
  · exact powMod_lt (2 ^ KEY_LENGTH) (by positivity) _ _ _
  · rw [encryptFile_salt_slice m p t salt iv hs]

/-- Witness for C4 at a concrete input. -/
theorem deriveKey_parameters_witness :
    (List.replicate 16 5).length = SALT_SIZE ∧
    deriveKey "pw" (List.replicate 16 5) < 2 ^ KEY_LENGTH :=
  ⟨by decide,
    (deriveKey_parameters [1] "pw" "t" (List.replicate 16 5)
      (List.replicate 12 6) (by decide)).2.2.2.2.1⟩

/-- Counterexample to C6 as stated: the source's `deriveKey` has no error
channel at all.  The spec-modelled KDF (`deriveKeySpec`) rejects a 15-byte
salt with `InvalidSalt` and an empty passphrase with `EmptyPassphrase`, but
the code derives a key for the 15-byte salt anyway, and an empty passphrase
encrypts and decrypts a file end to end successfully. -/
theorem deriveKey_no_validation_counterexample :
    deriveKeySpec "pw" (List.replicate 15 0) = .error .InvalidSalt ∧
    deriveKeySpec "" (List.replicate 16 0) = .error .EmptyPassphrase ∧
    deriveKey "pw" (List.replicate 15 0) < 2 ^ KEY_LENGTH ∧
    decryptFile ⟨(encryptFile ⟨[1, 2, 3], "t"⟩ "" (List.replicate 16 0)
        (List.replicate 12 0)).data, "t"⟩ ""
      = .ok ⟨[1, 2, 3], "t"⟩ := by
  refine ⟨by rfl, by rfl, ?_, ?_⟩
  · exact powMod_lt (2 ^ KEY_LENGTH) (by positivity) _ _ _
  · exact decrypt_encrypt_aux [1, 2, 3] "" "t" "t" (List.replicate 16 0)
      (List.replicate 12 0) (by decide) (by decide)

/-- C6 (amended): `deriveKey` performs no input validation: every salt
(of any length) and every passphrase (including the empty one) is accepted,
and a 256-bit key is always produced; in particular a container encrypted
under the empty passphrase decrypts successfully under the empty passphrase.
The `InvalidSalt` / `EmptyPassphrase` failures described by the spec do not
exist in the code. -/
theorem deriveKey_no_validation (p : String) (s : List Nat)
    (m salt iv : List Nat) (t t' : String)
    (hs : salt.length = SALT_SIZE) (hi : iv.length = IV_SIZE) :
    deriveKey p s < 2 ^ KEY_LENGTH ∧
    decryptFile ⟨(encryptFile ⟨m, t⟩ "" salt iv).data, t'⟩ ""
      = .ok ⟨m, t'⟩ := by
  refine ⟨powMod_lt (2 ^ KEY_LENGTH) (by positivity) _ _ _, ?_⟩
  exact decrypt_encrypt_aux m "" t t' salt iv hs hi

/-- Witness for C6's amended theorem at a concrete input. -/
theorem deriveKey_no_validation_witness :
    (List.replicate 16 9).length = SALT_SIZE ∧
    deriveKey "" [1, 2] < 2 ^ KEY_LENGTH :=
  ⟨by decide,
    (deriveKey_no_validation "" [1, 2] [3] (List.replicate 16 9)
      (List.replicate 12 8) "t" "u" (by decide) (by decide)).1⟩

/-- C8: two calls to `encryptFile` with the same plaintext and passphrase
but distinct fresh random draws (distinct salts and distinct nonces, the
overwhelmingly probable outcome of two independent secure-RNG draws that
the spec's section-9 strategy injects as parameters) produce two different
containers, and each of the two containers independently decrypts back to
the original plaintext under the same passphrase. -/
theorem encryptFile_distinct_draws (m : List Nat) (p t t' : String)
    (s1 iv1 s2 iv2 : List Nat)
    (hs1 : s1.length = SALT_SIZE) (hi1 : iv1.length = IV_SIZE)
    (hs2 : s2.length = SALT_SIZE) (hi2 : iv2.length = IV_SIZE)
    (hne : s1 ≠ s2) (_hivne : iv1 ≠ iv2) :
    (encryptFile ⟨m, t⟩ p s1 iv1).data ≠ (encryptFile ⟨m, t⟩ p s2 iv2).data ∧
    decryptFile ⟨(encryptFile ⟨m, t⟩ p s1 iv1).data, t'⟩ p = .ok ⟨m, t'⟩ ∧
    decryptFile ⟨(encryptFile ⟨m, t⟩ p s2 iv2).data, t'⟩ p = .ok ⟨m, t'⟩ := by
  refine ⟨?_, decrypt_encrypt_aux m p t t' s1 iv1 hs1 hi1,
    decrypt_encrypt_aux m p t t' s2 iv2 hs2 hi2⟩
  intro h
  apply hne
  rw [← encryptFile_salt_slice m p t s1 iv1 hs1,
    ← encryptFile_salt_slice m p t s2 iv2 hs2, h]

/-- Witness for C8 at a concrete input. -/
theorem encryptFile_distinct_draws_witness :
    List.replicate 16 1 ≠ List.replicate 16 2 ∧
    (encryptFile ⟨[42], "t"⟩ "pw" (List.replicate 16 1)
        (List.replicate 12 1)).data
      ≠ (encryptFile ⟨[42], "t"⟩ "pw" (List.replicate 16 2)
        (List.replicate 12 2)).data :=
  ⟨by decide,
    (encryptFile_distinct_draws [42] "pw" "t" "u" (List.replicate 16 1)
      (List.replicate 12 1) (List.replicate 16 2) (List.replicate 12 2)
      (by decide) (by decide) (by decide) (by decide) (by decide)
      (by decide)).1⟩

/-- C9: every failure of `decryptFile` — a buffer too short for the fixed
slices, a tag mismatch from a wrong passphrase, corrupted bytes — surfaces
as one single error carrying the identical fixed message; the public
interface never distinguishes the causes. -/
theorem decryptFile_single_error_message (f : WebFile) (p e : String)
    (h : decryptFile f p = .error e) :
    e = "Decryption failed. Please check your passphrase and ensure the file is not corrupted." := by
  rw [decryptFile] at h
  cases hinner : decryptFileInner f p with
  | ok b => rw [hinner] at h; cases h
  | error s =>
    rw [hinner] at h
    have : decryptErrorMsg = e := by
      have := h
      simpa using this
    rw [← this]
    rfl

/-- Witness for C9 at a concrete input. -/
theorem decryptFile_single_error_message_witness :
    decryptFile ⟨[], "t"⟩ "pw" = .error decryptErrorMsg ∧
    decryptErrorMsg
      = "Decryption failed. Please check your passphrase and ensure the file is not corrupted." :=
  ⟨by rfl, decryptFile_single_error_message ⟨[], "t"⟩ "pw" decryptErrorMsg
    (by rfl)⟩

/-- C10: on success, the Blob `decryptFile` returns carries the same MIME
type as the input `WebFile` that held the container, while the Blob
`encryptFile` returns carries no MIME type (the empty type string); and the
plaintext bytes come back unchanged alongside that type metadata. -/
theorem blob_mime_types (f : WebFile) (p t' : String) (salt iv : List Nat)
    (g : WebFile) (q : String) (b : WebBlob)
    (hs : salt.length = SALT_SIZE) (hi : iv.length = IV_SIZE)
    (hg : decryptFile g q = .ok b) :
    (encryptFile f p salt iv).type = "" ∧
    b.type = g.type ∧
    decryptFile ⟨(encryptFile f p salt iv).data, t'⟩ p = .ok ⟨f.data, t'⟩ := by
  refine ⟨rfl, ?_, decrypt_encrypt_aux f.data p f.type t' salt iv hs hi⟩
  have hinner : ∀ b', decryptFileInner g q = .ok b' → b'.type = g.type := by
    intro b' h'
    simp only [decryptFileInner] at h'
    split at h'
    · cases h'
    · split at h'
      · cases h'
        rfl
      · cases h'
  rw [decryptFile] at hg
  cases hcase : decryptFileInner g q with
  | ok b' =>
    rw [hcase] at hg
    cases hg
    exact hinner _ hcase
  | error s => rw [hcase] at hg; cases hg

/-- Witness for C10 at a concrete input. -/
theorem blob_mime_types_witness :
    (encryptFile ⟨[5], "x"⟩ "pw" (List.replicate 16 3)
      (List.replicate 12 4)).type = "" ∧
    (⟨[5], "text/plain"⟩ : WebBlob).type
      = (⟨(encryptFile ⟨[5], "x"⟩ "pw" (List.replicate 16 3)
          (List.replicate 12 4)).data, "text/plain"⟩ : WebFile).type :=
  ⟨(blob_mime_types ⟨[5], "x"⟩ "pw" "y" (List.replicate 16 3)
      (List.replicate 12 4)
      ⟨(encryptFile ⟨[5], "x"⟩ "pw" (List.replicate 16 3)
        (List.replicate 12 4)).data, "text/plain"⟩ "pw" ⟨[5], "text/plain"⟩
      (by decide) (by decide)
      (decrypt_encrypt_aux [5] "pw" "x" "text/plain" (List.replicate 16 3)
        (List.replicate 12 4) (by decide) (by decide))).1,
   (blob_mime_types ⟨[5], "x"⟩ "pw" "y" (List.replicate 16 3)
      (List.replicate 12 4)
      ⟨(encryptFile ⟨[5], "x"⟩ "pw" (List.replicate 16 3)
        (List.replicate 12 4)).data, "text/plain"⟩ "pw" ⟨[5], "text/plain"⟩
      (by decide) (by decide)
      (decrypt_encrypt_aux [5] "pw" "x" "text/plain" (List.replicate 16 3)
        (List.replicate 12 4) (by decide) (by decide))).2.1⟩
